import Mathlib

/-
Verification development for the aare.ai Azure ontology-driven constraint
verification pipeline.

Embedded from src/handlers/ontology_loader.py: the OntologyLoader (load,
validation of required top-level fields, the hardcoded default
mortgage-compliance ontology) and its interaction with blob storage,
modelled as an explicit storage outcome passed to load.

The extraction engine and the constraint evaluation engine are imported by
src/function_app.py from the aare_core package, whose code is not part of
this repository snapshot; those components are modelled from the spec
(sections 4.2, 4.3, 4.4): pattern extractors as a small regular-expression
interpreter with one capture group, keyword extractors as case-insensitive
substring tests, money and numeric coercion, Kleene three-valued evaluation
of formulas, and the verify orchestrator. Numbers are embedded as rationals
so that numeric comparisons are exact.
-/

set_option maxRecDepth 20000

namespace Aare

/-- Three-valued (Kleene) truth values used by the constraint evaluation
engine: a comparison or boolean atom over an absent variable is unknown. -/
inductive Tri where
  | tt
  | ff
  | unknown
deriving DecidableEq

/-- Kleene conjunction: ff absorbs, unknown propagates otherwise. -/
def and3 : Tri → Tri → Tri
  | Tri.ff, _ => Tri.ff
  | _, Tri.ff => Tri.ff
  | Tri.tt, Tri.tt => Tri.tt
  | _, _ => Tri.unknown

/-- Kleene disjunction: tt absorbs, unknown propagates otherwise. -/
def or3 : Tri → Tri → Tri
  | Tri.tt, _ => Tri.tt
  | _, Tri.tt => Tri.tt
  | Tri.ff, Tri.ff => Tri.ff
  | _, _ => Tri.unknown

/-- Kleene negation. -/
def not3 : Tri → Tri
  | Tri.tt => Tri.ff
  | Tri.ff => Tri.tt
  | Tri.unknown => Tri.unknown

/-- Kleene implication, defined classically from negation and disjunction. -/
def imp3 (a b : Tri) : Tri := or3 (not3 a) b

/-- Extracted variable values: numbers (int, real, float and money all embed
as exact rationals) and booleans. -/
inductive Value where
  | num (q : Rat)
  | bool (b : Bool)
deriving DecidableEq

/-- Comparison operators of the logical expression language. -/
inductive CmpOp where
  | le
  | lt
  | ge
  | gt
  | eq
  | ne
deriving DecidableEq

/-- Numeric terms of a comparison: a variable reference or a literal. -/
inductive Term where
  | var (n : String)
  | num (q : Rat)
deriving DecidableEq

/-- Logical expression tree over the operators AND, OR, NOT, IMPLIES,
comparison, boolean variable reference and boolean literal. -/
inductive Formula where
  | and (a b : Formula)
  | or (a b : Formula)
  | not (f : Formula)
  | implies (a b : Formula)
  | cmp (op : CmpOp) (l r : Term)
  | var (n : String)
  | lit (b : Bool)
deriving DecidableEq

/-- Declared variable of a constraint, as in the source data:
a name and a type string (real, int, bool). -/
structure VarDecl where
  name : String
  type : String
deriving DecidableEq

/-- A constraint of the ontology. The fields id, category, description,
formula_readable, vars (named variables in the source data, a reserved word
here), error_message and citation are transcribed from the source data;
formula is the logical expression tree denoted by formula_readable, modelled
from the spec section on LogicalExpression. -/
structure Constraint where
  id : String
  category : String
  description : String
  formula_readable : String
  formula : Formula
  vars : List VarDecl
  error_message : String
  citation : String

/-- An assignment from variable names to extracted values; a name with no
entry is absent. -/
def Assignment := List (String × Value)

/-- Exact comparison on rationals per operator. -/
def evalCmp : CmpOp → Rat → Rat → Bool
  | CmpOp.le, x, y => decide (x ≤ y)
  | CmpOp.lt, x, y => decide (x < y)
  | CmpOp.ge, x, y => decide (y ≤ x)
  | CmpOp.gt, x, y => decide (y < x)
  | CmpOp.eq, x, y => decide (x = y)
  | CmpOp.ne, x, y => !(decide (x = y))

/-- Numeric denotation of a term under an assignment; a variable that is
absent or bound to a non-numeric value has no denotation. -/
def evalTerm (a : Assignment) : Term → Option Rat
  | Term.num q => some q
  | Term.var n =>
      match List.lookup n a with
      | some (Value.num q) => some q
      | _ => none

/-- Three-valued evaluation of a formula under an assignment, modelled from
the spec: an atom over an absent variable is unknown, the connectives follow
Kleene semantics. -/
def eval3 (a : Assignment) : Formula → Tri
  | Formula.lit b => if b then Tri.tt else Tri.ff
  | Formula.var n =>
      match List.lookup n a with
      | some (Value.bool b) => if b then Tri.tt else Tri.ff
      | _ => Tri.unknown
  | Formula.cmp op l r =>
      match evalTerm a l, evalTerm a r with
      | some x, some y => if evalCmp op x y then Tri.tt else Tri.ff
      | _, _ => Tri.unknown
  | Formula.and f g => and3 (eval3 a f) (eval3 a g)
  | Formula.or f g => or3 (eval3 a f) (eval3 a g)
  | Formula.not f => not3 (eval3 a f)
  | Formula.implies f g => imp3 (eval3 a f) (eval3 a g)

/-- Variable names referenced by a term. -/
def termVars : Term → List String
  | Term.var n => [n]
  | Term.num _ => []

/-- Variable names referenced by a formula, in left-to-right order. -/
def formulaVars : Formula → List String
  | Formula.lit _ => []
  | Formula.var n => [n]
  | Formula.cmp _ l r => termVars l ++ termVars r
  | Formula.and f g => formulaVars f ++ formulaVars g
  | Formula.or f g => formulaVars f ++ formulaVars g
  | Formula.implies f g => formulaVars f ++ formulaVars g
  | Formula.not f => formulaVars f

/-- Per-constraint proof trace record, modelled from the spec: constraint id,
three-valued truth, variables used and the absent ones among them. -/
structure TraceRecord where
  constraint_id : String
  truth_value : Tri
  variables_used : List String
  missing_variables : List String

/-- A reported violation, modelled from the spec: identifying and explanatory
fields of the constraint plus a snapshot of the referenced variables. -/
structure Violation where
  constraint_id : String
  category : String
  description : String
  error_message : String
  citation : String
  assignment_snapshot : List (String × Option Value)

/-- Trace record for one constraint under an assignment. -/
def evalConstraint (a : Assignment) (c : Constraint) : TraceRecord :=
  { constraint_id := c.id
    truth_value := eval3 a c.formula
    variables_used := formulaVars c.formula
    missing_variables :=
      (formulaVars c.formula).filter (fun v => (List.lookup v a).isNone) }

/-- Violation report for one constraint under an assignment. -/
def mkViolation (a : Assignment) (c : Constraint) : Violation :=
  { constraint_id := c.id
    category := c.category
    description := c.description
    error_message := c.error_message
    citation := c.citation
    assignment_snapshot :=
      (formulaVars c.formula).map (fun v => (v, List.lookup v a)) }

/-- Result of the constraint evaluation engine. -/
structure EvalResult where
  verified : Bool
  violations : List Violation
  proof : List TraceRecord

/-- Constraint evaluation engine, modelled from the spec: a constraint is a
violation exactly when its formula evaluates to definite false; the proof
trace records every constraint in declared order; the verdict is that the
violation list is empty. -/
def evaluate (a : Assignment) (cs : List Constraint) : EvalResult :=
  let vio := (cs.filter (fun c => decide (eval3 a c.formula = Tri.ff))).map
    (mkViolation a)
  { verified := vio.isEmpty
    violations := vio
    proof := cs.map (evalConstraint a) }

/-- Regular expression syntax used to model the pattern extractors of the
spec: a character class, sequencing, alternation, Kleene star, the empty
pattern and the single capture group each default pattern carries. -/
inductive Re where
  | eps
  | cls (p : Char → Bool)
  | seq (a b : Re)
  | alt (a b : Re)
  | star (r : Re)
  | group (r : Re)

/-- State after matching a prefix of the input: the remaining input and, when
the capture group participated, the captured characters together with the
input remaining right after the group. -/
structure MatchSt where
  rest : List Char
  cap : Option (List Char × List Char)

/-- Concatenation of the images of a list under a list-valued function. -/
def concatMap (f : α → List β) : List α → List β
  | [] => []
  | x :: xs => f x ++ concatMap f xs

/-- Combine the capture of a first-part state into every continuation
state. -/
def mergeSt (s1 : MatchSt) (states : List MatchSt) : List MatchSt :=
  states.map (fun s2 => ⟨s2.rest, s1.cap.orElse (fun _ => s2.cap)⟩)

/-- Backtracking matcher: all states reachable by matching the pattern at
the head of the input, with repetition enumerating longer matches first to
follow the greedy semantics of the source patterns. The recursion is
structural on a fuel bound consumed at every step so that the matcher
reduces inside the kernel; the search entry point supplies fuel ample for
the default patterns, each of whose starred subpatterns consumes at least
one character per iteration. -/
def matchRe : Nat → Re → List Char → List MatchSt
  | 0, _, _ => []
  | _ + 1, Re.eps, cs => [⟨cs, none⟩]
  | _ + 1, Re.cls _, [] => []
  | _ + 1, Re.cls p, c :: cs => if p c then [⟨cs, none⟩] else []
  | fuel + 1, Re.seq a b, cs =>
      concatMap (fun s1 => mergeSt s1 (matchRe fuel b s1.rest))
        (matchRe fuel a cs)
  | fuel + 1, Re.alt a b, cs => matchRe fuel a cs ++ matchRe fuel b cs
  | fuel + 1, Re.star r, cs =>
      concatMap
        (fun s1 => mergeSt s1 (matchRe fuel (Re.star r) s1.rest))
        (matchRe fuel r cs) ++ [⟨cs, none⟩]
  | fuel + 1, Re.group r, cs =>
      (matchRe fuel r cs).map
        (fun s1 => ⟨s1.rest, some (cs.take (cs.length - s1.rest.length), s1.rest)⟩)

/-- Nesting depth of a pattern, used to size the matcher fuel. -/
def reDepth : Re → Nat
  | Re.eps => 1
  | Re.cls _ => 1
  | Re.seq a b => 1 + max (reDepth a) (reDepth b)
  | Re.alt a b => 1 + max (reDepth a) (reDepth b)
  | Re.star r => 1 + reDepth r
  | Re.group r => 1 + reDepth r

/-- First state carrying a capture, in match enumeration order. -/
def firstCapture : List MatchSt → Option (List Char × List Char)
  | [] => none
  | s :: rest =>
      match s.cap with
      | some c => some c
      | none => firstCapture rest

/-- Leftmost search: try the pattern at each start position in turn and
return the capture of the first successful match. -/
def searchFrom (r : Re) : List Char → Option (List Char × List Char)
  | [] => firstCapture (matchRe (reDepth r + 2) r [])
  | c :: cs =>
      match firstCapture
          (matchRe ((cs.length + 3) * (reDepth r + 2)) r (c :: cs)) with
      | some res => some res
      | none => searchFrom r cs

/-- Decimal digit test. -/
def isDigitCh (c : Char) : Bool := '0' ≤ c && c ≤ '9'

/-- Numeric value of a decimal digit character. -/
def digitVal (c : Char) : Nat := c.toNat - 48

/-- Parse a nonempty all-digit character list as a natural number. -/
def parseNatChars (cs : List Char) : Option Nat :=
  if cs.isEmpty then none
  else if cs.all isDigitCh then
    some (cs.foldl (fun acc c => acc * 10 + digitVal c) 0)
  else none

/-- Parse a decimal numeral, with an optional fractional part after a dot,
as an exact rational. -/
def parseDecChars (cs : List Char) : Option Rat :=
  match cs.span (fun c => c != '.') with
  | (ip, []) => (parseNatChars ip).map (fun n => (n : Rat))
  | (ip, _ :: fp) =>
      match parseNatChars ip, parseNatChars fp with
      | some n, some m => some ((n : Rat) + (m : Rat) / ((10 : Rat) ^ fp.length))
      | _, _ => none

/-- Strip the dollar sign and thousands separators from a captured money
numeral, per the spec money coercion. -/
def stripMoneyChars (cs : List Char) : List Char :=
  cs.filter (fun c => c != '$' && c != ',')

/-- Money coercion, modelled from the spec: strip the dollar sign and
thousands separators, and multiply by 1000 when the match continues with a
k right after the captured number. -/
def coerceMoney (cap : List Char) (kSuffix : Bool) : Option Value :=
  (parseNatChars (stripMoneyChars cap)).map
    (fun n => Value.num (((if kSuffix then n * 1000 else n) : Nat) : Rat))

/-- Whether the text right after the captured number starts with k (the
input is lowercased before matching, so this covers k and K). -/
def startsWithK : List Char → Bool
  | 'k' :: _ => true
  | _ => false

/-- Numeric pattern extractor types occurring in the default ontology data:
int, float (the spec groups it with real) and money. -/
inductive PatTy where
  | int
  | float
  | money

/-- Run a pattern extractor on lowercased text: search for the pattern, then
coerce the captured substring per type; coercion failure or no match yields
absence. -/
def runPattern (ty : PatTy) (r : Re) (cs : List Char) : Option Value :=
  match searchFrom r cs with
  | none => none
  | some (cap, after) =>
      match ty with
      | PatTy.int => (parseNatChars cap).map (fun n => Value.num (n : Rat))
      | PatTy.float => (parseDecChars cap).map (fun q => Value.num q)
      | PatTy.money => coerceMoney cap (startsWithK after)

/-- An extractor rule of the in-memory ontology model: a typed single-group
pattern, or a keyword rule for booleans. -/
inductive ExtractorRule where
  | pat (ty : PatTy) (r : Re)
  | keyword (kws : List (List Char))

/-- Whether the first list is a prefix of the second. -/
def listPrefixEq : List Char → List Char → Bool
  | [], _ => true
  | _ :: _, [] => false
  | a :: as, b :: bs => a == b && listPrefixEq as bs

/-- Whether the needle occurs as a contiguous substring of the haystack. -/
def hasSub (needle : List Char) : List Char → Bool
  | [] => listPrefixEq needle []
  | c :: cs => listPrefixEq needle (c :: cs) || hasSub needle cs

/-- Lowercase one ASCII character. -/
def lowerChar (c : Char) : Char :=
  if 'A' ≤ c && c ≤ 'Z' then Char.ofNat (c.toNat + 32) else c

/-- Lowercase a character list; extraction is case-insensitive per the
spec. -/
def lowerStr (s : List Char) : List Char := s.map lowerChar

/-- Extraction over lowercased text, modelled from the spec: each rule is
applied independently; a pattern rule that fails to match or coerce yields
absence; a keyword rule always asserts a boolean, true exactly when some
keyword occurs as a substring. -/
def extractLowered (cs : List Char) : List (String × ExtractorRule) → List (String × Value)
  | [] => []
  | (n, ExtractorRule.pat ty r) :: rest =>
      match runPattern ty r cs with
      | some v => (n, v) :: extractLowered cs rest
      | none => extractLowered cs rest
  | (n, ExtractorRule.keyword kws) :: rest =>
      (n, Value.bool (kws.any (fun k => hasSub k cs))) :: extractLowered cs rest

/-- Extraction engine, modelled from the spec: lowercase the text and apply
every extractor independently. -/
def extract (text : String) (exs : List (String × ExtractorRule)) : Assignment :=
  extractLowered (lowerStr text.toList) exs

/-- In-memory ontology model per the spec data model section. -/
structure Ontology where
  name : String
  version : String
  description : String
  constraints : List Constraint
  extractors : List (String × ExtractorRule)

/-- Verification result, modelled from the spec: verdict, violations, proof
trace and the execution time, the last supplied by the caller clock. -/
structure VerificationResult where
  verified : Bool
  violations : List Violation
  proof : List TraceRecord
  execution_time_ms : Nat

/-- Verification orchestrator, modelled from the spec: extract, evaluate,
and wrap with the wall-clock time, which is the only clock-dependent
field. -/
def verify (text : String) (o : Ontology) (clock : Nat) : VerificationResult :=
  let a := extract text o.extractors
  let r := evaluate a o.constraints
  { verified := r.verified
    violations := r.violations
    proof := r.proof
    execution_time_ms := clock }

/-- Single-character pattern. -/
def rchar (c : Char) : Re := Re.cls (fun x => x == c)

/-- Literal word pattern. -/
def rstr : List Char → Re
  | [] => Re.eps
  | c :: cs => Re.seq (rchar c) (rstr cs)

/-- Optional pattern, as in a trailing question mark. -/
def ropt (r : Re) : Re := Re.alt r Re.eps

/-- One-or-more repetition, as in a trailing plus. -/
def rplus (r : Re) : Re := Re.seq r (Re.star r)

/-- Whitespace class standing for the backslash-s class of the source
patterns. -/
def wsChar (c : Char) : Bool := c == ' ' || c == '\t' || c == '\n' || c == '\r'

/-- Decimal numeral subpattern: digits with an optional dot-fraction,
transcribing the capture group of the dti source pattern. -/
def decRe : Re :=
  Re.seq (rplus (Re.cls isDigitCh))
    (ropt (Re.seq (rchar '.') (rplus (Re.cls isDigitCh))))

/-- Source pattern of the dti extractor: dti, then any run of colon,
whitespace or tilde, then a captured decimal numeral. -/
def dtiRe : Re :=
  Re.seq (rstr "dti".toList)
    (Re.seq (Re.star (Re.cls (fun c => c == ':' || wsChar c || c == '~')))
      (Re.group decRe))

/-- Source pattern of the credit_score extractor: fico or credit score, then
any run of colon or whitespace, then three captured digits. -/
def creditScoreRe : Re :=
  Re.seq (Re.alt (rstr "fico".toList) (rstr "credit score".toList))
    (Re.seq (Re.star (Re.cls (fun c => c == ':' || wsChar c)))
      (Re.group (Re.seq (Re.cls isDigitCh)
        (Re.seq (Re.cls isDigitCh) (Re.cls isDigitCh)))))

/-- Captured money numeral: one or more digits or commas. -/
def moneyNumRe : Re := Re.group (rplus (Re.cls (fun c => isDigitCh c || c == ',')))

/-- Source pattern of the fees extractor: optional dollar sign, a captured
digit-and-comma run, optional k, whitespace, then fee, fees, cost or
costs. -/
def feesRe : Re :=
  Re.seq (ropt (rchar '$'))
    (Re.seq moneyNumRe
      (Re.seq (ropt (rchar 'k'))
        (Re.seq (Re.star (Re.cls wsChar))
          (Re.alt (Re.seq (rstr "fee".toList) (ropt (rchar 's')))
            (Re.seq (rstr "cost".toList) (ropt (rchar 's')))))))

/-- Source pattern of the loan_amount extractor: optional dollar sign, a
captured digit-and-comma run, optional k, whitespace, then loan or
mortgage. -/
def loanAmountRe : Re :=
  Re.seq (ropt (rchar '$'))
    (Re.seq moneyNumRe
      (Re.seq (ropt (rchar 'k'))
        (Re.seq (Re.star (Re.cls wsChar))
          (Re.alt (rstr "loan".toList) (rstr "mortgage".toList)))))

/-- ATR_QM_DTI constraint of the default ontology, with its readable formula
transcribed into the expression tree. -/
def atr_qm_dti : Constraint :=
  { id := "ATR_QM_DTI"
    category := "ATR/QM"
    description := "Debt-to-income ratio requirements"
    formula_readable := "(dti ≤ 43) ∨ (compensating_factors ≥ 2)"
    formula := Formula.or
      (Formula.cmp CmpOp.le (Term.var "dti") (Term.num 43))
      (Formula.cmp CmpOp.ge (Term.var "compensating_factors") (Term.num 2))
    vars := [⟨"dti", "real"⟩, ⟨"compensating_factors", "int"⟩]
    error_message := "DTI exceeds 43% without sufficient compensating factors"
    citation := "12 CFR § 1026.43(c)" }

/-- HOEPA_HIGH_COST constraint of the default ontology. -/
def hoepa_high_cost : Constraint :=
  { id := "HOEPA_HIGH_COST"
    category := "HOEPA"
    description := "High-cost mortgage counseling requirement"
    formula_readable := "(fee_percentage < 8) ∨ counseling_disclosed"
    formula := Formula.or
      (Formula.cmp CmpOp.lt (Term.var "fee_percentage") (Term.num 8))
      (Formula.var "counseling_disclosed")
    vars := [⟨"fee_percentage", "real"⟩, ⟨"counseling_disclosed", "bool"⟩]
    error_message := "HOEPA triggered - counseling disclosure required"
    citation := "12 CFR § 1026.32" }

/-- UDAAP_NO_GUARANTEES constraint of the default ontology. -/
def udaap_no_guarantees : Constraint :=
  { id := "UDAAP_NO_GUARANTEES"
    category := "UDAAP"
    description := "Prohibition on guarantee language"
    formula_readable := "¬(has_guarantee ∧ has_approval)"
    formula := Formula.not
      (Formula.and (Formula.var "has_guarantee") (Formula.var "has_approval"))
    vars := [⟨"has_guarantee", "bool"⟩, ⟨"has_approval", "bool"⟩]
    error_message := "Cannot guarantee approval"
    citation := "12 CFR § 1036.3" }

/-- HPML_ESCROW constraint of the default ontology. -/
def hpml_escrow : Constraint :=
  { id := "HPML_ESCROW"
    category := "Escrow"
    description := "Escrow requirements based on FICO"
    formula_readable := "(credit_score ≥ 620) ∨ ¬escrow_waived"
    formula := Formula.or
      (Formula.cmp CmpOp.ge (Term.var "credit_score") (Term.num 620))
      (Formula.not (Formula.var "escrow_waived"))
    vars := [⟨"credit_score", "int"⟩, ⟨"escrow_waived", "bool"⟩]
    error_message := "Cannot waive escrow with FICO < 620"
    citation := "12 CFR § 1026.35(b)" }

/-- REG_B_ADVERSE constraint of the default ontology. -/
def reg_b_adverse : Constraint :=
  { id := "REG_B_ADVERSE"
    category := "Regulation B"
    description := "Adverse action disclosure requirements"
    formula_readable := "is_denial → has_specific_reason"
    formula := Formula.implies
      (Formula.var "is_denial") (Formula.var "has_specific_reason")
    vars := [⟨"is_denial", "bool"⟩, ⟨"has_specific_reason", "bool"⟩]
    error_message := "Must disclose specific denial reason"
    citation := "12 CFR § 1002.9" }

/-- Constraints of the default ontology, in source order. -/
def defaultConstraints : List Constraint :=
  [atr_qm_dti, hoepa_high_cost, udaap_no_guarantees, hpml_escrow, reg_b_adverse]

/-- Extractors of the default ontology, in source order, with the source
patterns transcribed into the pattern syntax and keyword lists copied
verbatim. -/
def defaultExtractors : List (String × ExtractorRule) :=
  [("dti", ExtractorRule.pat PatTy.float dtiRe),
   ("credit_score", ExtractorRule.pat PatTy.int creditScoreRe),
   ("fees", ExtractorRule.pat PatTy.money feesRe),
   ("loan_amount", ExtractorRule.pat PatTy.money loanAmountRe),
   ("has_guarantee", ExtractorRule.keyword
      ["guaranteed".toList, "100%".toList, "definitely".toList]),
   ("has_approval", ExtractorRule.keyword
      ["approved".toList, "approve".toList]),
   ("counseling_disclosed", ExtractorRule.keyword ["counseling".toList]),
   ("escrow_waived", ExtractorRule.keyword
      ["escrow waived".toList, "waive escrow".toList, "skip escrow".toList]),
   ("is_denial", ExtractorRule.keyword
      ["denied".toList, "cannot approve".toList]),
   ("has_specific_reason", ExtractorRule.keyword
      ["credit".toList, "income".toList, "dti".toList, "debt".toList,
       "score".toList])]

/-- The in-memory default mortgage compliance ontology. -/
def defaultOntology : Ontology :=
  { name := "mortgage-compliance-v1"
    version := "1.0.0"
    description := "U.S. Mortgage Compliance - Core constraints"
    constraints := defaultConstraints
    extractors := defaultExtractors }

/-- Keys of the extractor mapping of an ontology. -/
def extractorKeys (o : Ontology) : List String := o.extractors.map Prod.fst

/-- Whether every variable referenced in every constraint formula of an
ontology appears as a key of its extractor mapping. -/
def coversFormulaVars (o : Ontology) : Bool :=
  o.constraints.all
    (fun c => (formulaVars c.formula).all (fun v => (extractorKeys o).contains v))

/-- An ontology document as handled by the loader: the possible top-level
fields, each present or absent, mirroring the JSON dictionaries the Python
loader validates. -/
structure OntologyDoc where
  name : Option String
  version : Option String
  description : Option String
  constraints : Option (List Constraint)
  extractors : Option (List (String × ExtractorRule))

/-- Required top-level fields checked by the loader, in source order. -/
def requiredFields : List String := ["name", "version", "constraints", "extractors"]

/-- Presence of a top-level field in a document, by field name. -/
def OntologyDoc.hasField (o : OntologyDoc) (f : String) : Bool :=
  if f = "name" then o.name.isSome
  else if f = "version" then o.version.isSome
  else if f = "constraints" then o.constraints.isSome
  else if f = "extractors" then o.extractors.isSome
  else false

/-- First field of a list that is missing from the document, if any. -/
def firstMissing : List String → OntologyDoc → Option String
  | [], _ => none
  | f :: rest, o => if o.hasField f then firstMissing rest o else some f

/-- First required field missing from the document, if any. -/
def firstMissingField (o : OntologyDoc) : Option String :=
  firstMissing requiredFields o

namespace OntologyLoader

/-- Loader validation, as in the source method of the same name: walk the
required fields in order and fail on the first missing one with the source
error message, else return the document unchanged. -/
def checkFields : List String → OntologyDoc → Except String OntologyDoc
  | [], o => Except.ok o
  | f :: rest, o =>
      if o.hasField f then checkFields rest o
      else Except.error ("Invalid ontology: missing " ++ f)

/-- Validation entry point of the loader, checking the four required
top-level fields. -/
def validate_ontology (o : OntologyDoc) : Except String OntologyDoc :=
  checkFields requiredFields o

/-- The hardcoded default ontology document returned by the loader, with all
top-level fields present, transcribed from the source. -/
def get_default_ontology : OntologyDoc :=
  { name := some "mortgage-compliance-v1"
    version := some "1.0.0"
    description := some "U.S. Mortgage Compliance - Core constraints"
    constraints := some defaultConstraints
    extractors := some defaultExtractors }

/-- Outcome of the blob storage interaction inside load, embedding the
effects of the source: no client configured (empty connection string), blob
not found, any other storage or JSON parse failure, or a successfully
downloaded and parsed document. -/
inductive StorageOutcome where
  | noClient
  | notFound
  | storageError (msg : String)
  | parsed (doc : OntologyDoc)

/-- Loader entry point, as in the source: with no client or on any storage
failure fall through to the default; on a parsed document run validation,
and since the source wraps the whole body in a try whose except Exception
clause also catches the validation ValueError, a validation failure likewise
falls through to the default. -/
def load (ontology_name : String) (oc : StorageOutcome) : OntologyDoc :=
  match oc with
  | StorageOutcome.noClient => get_default_ontology
  | StorageOutcome.notFound => get_default_ontology
  | StorageOutcome.storageError _ => get_default_ontology
  | StorageOutcome.parsed doc =>
      match validate_ontology doc with
      | Except.ok v => v
      | Except.error _ => get_default_ontology

end OntologyLoader

/-- Document identical to the default one except that the extractors field
is absent, used to exercise validation failure. -/
def docMissingExtractors : OntologyDoc :=
  { OntologyLoader.get_default_ontology with extractors := none }

/-- A key that is not among the extractor names is absent from every
extracted assignment. -/
theorem lookup_extractLowered_not_mem (cs : List Char)
    (exs : List (String × ExtractorRule)) (k : String)
    (hk : k ∉ exs.map Prod.fst) :
    List.lookup k (extractLowered cs exs) = none := by
  induction exs with
  | nil => simp [extractLowered]
  | cons hd tl ih =>
    obtain ⟨n, r⟩ := hd
    simp only [List.map, List.mem_cons, not_or] at hk
    obtain ⟨hne, htl⟩ := hk
    have hbeq : (k == n) = false := beq_eq_false_iff_ne.mpr hne
    cases r with
    | pat ty re =>
      cases hp : runPattern ty re cs with
      | none => simpa [extractLowered, hp] using ih htl
      | some v => simpa [extractLowered, hp, List.lookup, hbeq] using ih htl
    | keyword kws => simpa [extractLowered, List.lookup, hbeq] using ih htl

/-- Every reported violation comes from a constraint of the evaluated list
whose formula evaluated to definite false. -/
theorem mem_violations (a : Assignment) (cs : List Constraint) (v : Violation)
    (hv : v ∈ (evaluate a cs).violations) :
    ∃ c, c ∈ cs ∧ v = mkViolation a c ∧ eval3 a c.formula = Tri.ff := by
  simp only [evaluate, List.mem_map, List.mem_filter] at hv
  obtain ⟨c, ⟨hc, hff⟩, rfl⟩ := hv
  exact ⟨c, hc, rfl, of_decide_eq_true hff⟩

/-- Claim C1 counterexample: it is not the case that every variable
referenced in a constraint formula of the built-in default ontology appears
as a key of its extractor mapping; compensating_factors is referenced by
ATR_QM_DTI yet has no extractor entry. -/
theorem default_extractor_cover_fails :
    coversFormulaVars defaultOntology = false ∧
    "compensating_factors" ∈ formulaVars atr_qm_dti.formula ∧
    "compensating_factors" ∉ extractorKeys defaultOntology := by
  decide

/-- Claim C1 (amended): in the built-in default ontology every variable
referenced in a constraint formula except compensating_factors (in
ATR_QM_DTI) and fee_percentage (in HOEPA_HIGH_COST) appears as a key of the
extractor mapping; those two appear in no extractor key. -/
theorem default_extractor_cover_amended :
    (defaultOntology.constraints.all (fun c => (formulaVars c.formula).all
        (fun v => v == "compensating_factors" || v == "fee_percentage" ||
          (extractorKeys defaultOntology).contains v))) = true ∧
    "compensating_factors" ∈ formulaVars atr_qm_dti.formula ∧
    "fee_percentage" ∈ formulaVars hoepa_high_cost.formula ∧
    "compensating_factors" ∉ extractorKeys defaultOntology ∧
    "fee_percentage" ∉ extractorKeys defaultOntology := by
  decide

/-- Claim C2 counterexample: on a document that fails schema validation the
loader does not surface the error; it silently substitutes the built-in
default ontology. -/
theorem schema_error_not_surfaced :
    OntologyLoader.validate_ontology docMissingExtractors =
      Except.error ("Invalid ontology: missing " ++ "extractors") ∧
    OntologyLoader.load "custom-rules"
        (OntologyLoader.StorageOutcome.parsed docMissingExtractors) =
      OntologyLoader.get_default_ontology :=
  ⟨rfl, rfl⟩

/-- Claim C2 (amended): whenever a downloaded ontology document fails schema
validation, load catches the error and returns the built-in default
ontology; the error is not surfaced to the caller. -/
theorem load_swallows_schema_error (oname : String) (d : OntologyDoc)
    (msg : String)
    (h : OntologyLoader.validate_ontology d = Except.error msg) :
    OntologyLoader.load oname (OntologyLoader.StorageOutcome.parsed d) =
      OntologyLoader.get_default_ontology := by
  simp [OntologyLoader.load, h]

/-- Witness for the amended claim C2 at a concrete invalid document. -/
theorem load_swallows_schema_error_example :
    OntologyLoader.load "custom-rules"
        (OntologyLoader.StorageOutcome.parsed docMissingExtractors) =
      OntologyLoader.get_default_ontology :=
  load_swallows_schema_error "custom-rules" docMissingExtractors
    ("Invalid ontology: missing " ++ "extractors") rfl

/-- Claim C3: a document missing at least one required top-level field fails
validation with an error naming the first missing field, and a document with
all four required fields is returned unchanged. -/
theorem validate_first_missing_field (o : OntologyDoc) :
    (firstMissingField o = none →
      OntologyLoader.validate_ontology o = Except.ok o) ∧
    (∀ f, firstMissingField o = some f →
      OntologyLoader.validate_ontology o =
        Except.error ("Invalid ontology: missing " ++ f)) := by
  have key : ∀ (fs : List String),
      (firstMissing fs o = none → OntologyLoader.checkFields fs o = Except.ok o) ∧
      (∀ f, firstMissing fs o = some f →
        OntologyLoader.checkFields fs o =
          Except.error ("Invalid ontology: missing " ++ f)) := by
    intro fs
    induction fs with
    | nil =>
      refine ⟨fun _ => rfl, fun f h => ?_⟩
      simp [firstMissing] at h
    | cons g rest ih =>
      cases hg : o.hasField g with
      | true =>
        refine ⟨fun h => ?_, fun f h => ?_⟩
        · have h2 : firstMissing rest o = none := by
            simpa [firstMissing, hg] using h
          simpa [OntologyLoader.checkFields, hg] using ih.1 h2
        · have h2 : firstMissing rest o = some f := by
            simpa [firstMissing, hg] using h
          simpa [OntologyLoader.checkFields, hg] using ih.2 f h2
      | false =>
        refine ⟨fun h => ?_, fun f h => ?_⟩
        · simp [firstMissing, hg] at h
        · have h2 : g = f := by simpa [firstMissing, hg] using h
          subst h2
          simp [OntologyLoader.checkFields, hg]
  exact ⟨(key requiredFields).1, (key requiredFields).2⟩

/-- Witness for claim C3: a document missing exactly the extractors field
fails validation with the error naming extractors. -/
theorem validate_missing_extractors_example :
    OntologyLoader.validate_ontology docMissingExtractors =
      Except.error ("Invalid ontology: missing " ++ "extractors") :=
  (validate_first_missing_field docMissingExtractors).2 "extractors" rfl

/-- Claim C4: the built-in default ontology is a closed term, carries
version 1.0.0, has exactly 5 constraints and 10 extractors, and passes
schema validation unchanged. -/
theorem default_ontology_wellformed :
    OntologyLoader.get_default_ontology.version = some "1.0.0" ∧
    OntologyLoader.get_default_ontology.constraints = some defaultConstraints ∧
    defaultConstraints.length = 5 ∧
    OntologyLoader.get_default_ontology.extractors = some defaultExtractors ∧
    defaultExtractors.length = 10 ∧
    OntologyLoader.validate_ontology OntologyLoader.get_default_ontology =
      Except.ok OntologyLoader.get_default_ontology :=
  ⟨rfl, rfl, rfl, rfl, rfl, rfl⟩

/-- Claim C5: for every ontology, text and clock the verdict is true exactly
when the violations list is empty. -/
theorem verified_iff_no_violations (T : String) (o : Ontology) (clock : Nat) :
    (verify T o clock).verified = (verify T o clock).violations.isEmpty :=
  rfl

/-- Claim C6: whenever no dti value is extracted, the ATR_QM_DTI constraint
of the default ontology evaluates to unknown, appears in the proof trace
with dti among its missing variables, and never appears in the violations
list; and in general a violation is reported only for a constraint whose
formula evaluates to definite false. -/
theorem absent_dti_policy (T : String) (clock : Nat) (o : Ontology)
    (h : List.lookup "dti" (extract T defaultOntology.extractors) = none) :
    (∃ p ∈ (verify T defaultOntology clock).proof,
        p.constraint_id = "ATR_QM_DTI" ∧ p.truth_value = Tri.unknown ∧
        "dti" ∈ p.missing_variables) ∧
    (∀ v ∈ (verify T defaultOntology clock).violations,
        v.constraint_id ≠ "ATR_QM_DTI") ∧
    (∀ v ∈ (verify T o clock).violations, ∃ c ∈ o.constraints,
        v.constraint_id = c.id ∧
        eval3 (extract T o.extractors) c.formula = Tri.ff) := by
  have hcf : List.lookup "compensating_factors"
      (extract T defaultOntology.extractors) = none :=
    lookup_extractLowered_not_mem (lowerStr T.toList) defaultOntology.extractors
      "compensating_factors" (by decide)
  have hunk : eval3 (extract T defaultOntology.extractors) atr_qm_dti.formula =
      Tri.unknown := by
    simp [atr_qm_dti, eval3, evalTerm, h, hcf, or3]
  refine ⟨⟨evalConstraint (extract T defaultOntology.extractors) atr_qm_dti,
      ?_, rfl, hunk, ?_⟩, ?_, ?_⟩
  · simp [verify, evaluate, defaultOntology, defaultConstraints]
  · simp [evalConstraint, atr_qm_dti, formulaVars, termVars, h, hcf]
  · intro v hv
    obtain ⟨c, hc, rfl, hff⟩ :=
      mem_violations (extract T defaultOntology.extractors)
        defaultOntology.constraints v hv
    simp only [defaultOntology, defaultConstraints, List.mem_cons,
      List.not_mem_nil, or_false] at hc
    rcases hc with rfl | rfl | rfl | rfl | rfl
    · rw [hunk] at hff
      exact absurd hff (by decide)
    · simp [mkViolation, hoepa_high_cost]
    · simp [mkViolation, udaap_no_guarantees]
    · simp [mkViolation, hpml_escrow]
    · simp [mkViolation, reg_b_adverse]
  · intro v hv
    obtain ⟨c, hc, rfl, hff⟩ :=
      mem_violations (extract T o.extractors) o.constraints v hv
    exact ⟨c, hc, rfl, hff⟩

/-- Witness for claim C6 at a concrete text with no dti mention. -/
theorem absent_dti_policy_example :
    (∃ p ∈ (verify "hello" defaultOntology 0).proof,
        p.constraint_id = "ATR_QM_DTI" ∧ p.truth_value = Tri.unknown ∧
        "dti" ∈ p.missing_variables) ∧
    (∀ v ∈ (verify "hello" defaultOntology 0).violations,
        v.constraint_id ≠ "ATR_QM_DTI") ∧
    (∀ v ∈ (verify "hello" defaultOntology 0).violations,
        ∃ c ∈ defaultOntology.constraints,
        v.constraint_id = c.id ∧
        eval3 (extract "hello" defaultOntology.extractors) c.formula = Tri.ff) :=
  absent_dti_policy "hello" 0 defaultOntology (by decide)

/-- Claim C7: money extraction strips the dollar sign and thousands
separators and multiplies by 1000 on a k suffix; in particular the default
fees extractor yields 450000 from the text with 450k dollars of fees. -/
theorem money_k_suffix :
    List.lookup "fees" (extract "$450k fees" defaultOntology.extractors) =
      some (Value.num 450000) ∧
    (∀ (cap : List Char) (n : Nat),
      parseNatChars (stripMoneyChars cap) = some n →
      coerceMoney cap true = some (Value.num ((n * 1000 : Nat) : Rat)) ∧
      coerceMoney cap false = some (Value.num ((n : Nat) : Rat))) := by
  refine ⟨by decide, ?_⟩
  intro cap n hp
  constructor <;> simp [coerceMoney, hp]

/-- Witness for claim C7 unfolding the money coercion at the captured
number 450. -/
theorem money_k_suffix_example :
    coerceMoney ['4', '5', '0'] true = some (Value.num ((450 * 1000 : Nat) : Rat)) ∧
    coerceMoney ['4', '5', '0'] false = some (Value.num ((450 : Nat) : Rat)) :=
  money_k_suffix.2 ['4', '5', '0'] 450 (by decide)

/-- Claim C8: with dti bound to exactly 43 the comparison dti at most 43 is
exactly satisfied, the ATR_QM_DTI formula is definitely true, and that
constraint never reaches the violations list; rationals make the boundary
comparison exact. -/
theorem dti_boundary_exact (a : Assignment)
    (h : List.lookup "dti" a = some (Value.num 43)) :
    eval3 a (Formula.cmp CmpOp.le (Term.var "dti") (Term.num 43)) = Tri.tt ∧
    eval3 a atr_qm_dti.formula = Tri.tt ∧
    ∀ v ∈ (evaluate a defaultOntology.constraints).violations,
      v.constraint_id ≠ "ATR_QM_DTI" := by
  have hle : eval3 a (Formula.cmp CmpOp.le (Term.var "dti") (Term.num 43)) =
      Tri.tt := by
    simp +decide [eval3, evalTerm, h, evalCmp]
  have hfm : eval3 a atr_qm_dti.formula = Tri.tt := by
    have hdef : eval3 a atr_qm_dti.formula =
        or3 (eval3 a (Formula.cmp CmpOp.le (Term.var "dti") (Term.num 43)))
          (eval3 a (Formula.cmp CmpOp.ge (Term.var "compensating_factors")
            (Term.num 2))) := rfl
    rw [hdef, hle]
    cases eval3 a (Formula.cmp CmpOp.ge (Term.var "compensating_factors")
      (Term.num 2)) <;> rfl
  refine ⟨hle, hfm, ?_⟩
  intro v hv
  obtain ⟨c, hc, rfl, hff⟩ :=
    mem_violations a defaultOntology.constraints v hv
  simp only [defaultOntology, defaultConstraints, List.mem_cons,
    List.not_mem_nil, or_false] at hc
  rcases hc with rfl | rfl | rfl | rfl | rfl
  · rw [hfm] at hff
    exact absurd hff (by decide)
  · simp [mkViolation, hoepa_high_cost]
  · simp [mkViolation, udaap_no_guarantees]
  · simp [mkViolation, hpml_escrow]
  · simp [mkViolation, reg_b_adverse]

/-- Witness for claim C8 at the singleton assignment binding dti to 43. -/
theorem dti_boundary_example :
    eval3 [("dti", Value.num 43)]
      (Formula.cmp CmpOp.le (Term.var "dti") (Term.num 43)) = Tri.tt ∧
    eval3 [("dti", Value.num 43)] atr_qm_dti.formula = Tri.tt ∧
    ∀ v ∈ (evaluate [("dti", Value.num 43)]
        defaultOntology.constraints).violations,
      v.constraint_id ≠ "ATR_QM_DTI" :=
  dti_boundary_exact [("dti", Value.num 43)] rfl

/-- Claim C9: verify is a pure function of text and ontology; two calls
differing only in the clock agree on the verdict, the violations and the
proof trace. -/
theorem verify_deterministic (T : String) (o : Ontology) (t1 t2 : Nat) :
    (verify T o t1).verified = (verify T o t2).verified ∧
    (verify T o t1).violations = (verify T o t2).violations ∧
    (verify T o t1).proof = (verify T o t2).proof :=
  ⟨rfl, rfl, rfl⟩

/-- Claim C10: with no storage client, a missing blob, any storage or parse
failure, or a document failing validation, load returns the built-in default
ontology rather than raising. -/
theorem load_falls_back_to_default :
    (∀ oname, OntologyLoader.load oname OntologyLoader.StorageOutcome.noClient =
      OntologyLoader.get_default_ontology) ∧
    (∀ oname, OntologyLoader.load oname OntologyLoader.StorageOutcome.notFound =
      OntologyLoader.get_default_ontology) ∧
    (∀ oname msg, OntologyLoader.load oname
        (OntologyLoader.StorageOutcome.storageError msg) =
      OntologyLoader.get_default_ontology) ∧
    (∀ oname d msg, OntologyLoader.validate_ontology d = Except.error msg →
      OntologyLoader.load oname (OntologyLoader.StorageOutcome.parsed d) =
        OntologyLoader.get_default_ontology) := by
  refine ⟨fun _ => rfl, fun _ => rfl, fun _ _ => rfl, fun oname d msg h => ?_⟩
  simp [OntologyLoader.load, h]

/-- Witness for claim C10 at an unknown ontology name whose document fails
validation. -/
theorem load_falls_back_example :
    OntologyLoader.load "unknown-ontology"
        (OntologyLoader.StorageOutcome.parsed docMissingExtractors) =
      OntologyLoader.get_default_ontology :=
  load_falls_back_to_default.2.2.2 "unknown-ontology" docMissingExtractors
    ("Invalid ontology: missing " ++ "extractors") rfl

end Aare
